import Mathlib

set_option autoImplicit false

/-!
Verification development for the map-preview synthesis pipeline of
`src/server/main-api/src/maps/mod.rs`.

The Rust module is shallowly embedded: pure Rust functions become Lean
functions, the database connection becomes an explicit record of query
oracles, and the HTTP responses become a concrete record type.  External
collaborators that the module only calls into (the PNG encoder, the alpha
blending arithmetic of the `image` crate, the decoded static assets, the
font rasterizer, and the tile compositing of the `overlay_map` submodule)
are threaded through a `RenderEnv` record so that every pipeline function
stays an executable, total Lean definition.
-/

/-- The localized location record, `crate::models::Location`, as selected by
`SELECT name,last_calendar_scrape_at,calendar_url,type,type_common_name,lat,lon`.
The `lat`/`lon` fields are `f64` in the source; no claim computes with the
coordinates, so they are carried opaquely as integers. -/
structure Location where
  name : String
  last_calendar_scrape_at : Option Nat
  calendar_url : Option String
  type_ : String
  type_common_name : String
  lat : Int
  lon : Int
  deriving DecidableEq

/-- `crate::models::LocationKeyAlias`: the columns selected from the
`aliases` table (`SELECT key, visible_id, type`). -/
structure LocationKeyAlias where
  key : String
  visible_id : String
  type_ : String
  deriving DecidableEq

/-- One stored row of the `aliases` table: the `alias` lookup column plus
the columns that the query of `get_possible_redirect_url` selects. -/
structure AliasRow where
  alias_col : String
  key : String
  visible_id : String
  type_ : String
  deriving DecidableEq

/-- An HTTP response body: plain text, raw bytes, or empty (`res.finish()`). -/
inductive Body where
  | text (s : String)
  | bytes (b : List Nat)
  | empty
  deriving DecidableEq

/-- The observable parts of an `actix_web::HttpResponse` built by this
module: status code, optional `content_type`, inserted headers, body. -/
structure HttpResponse where
  status : Nat
  contentType : Option String
  headers : List (String × String)
  body : Body
  deriving DecidableEq

/-- `HttpResponse::NotFound().content_type("text/plain").body("Not found")`. -/
def notFoundResponse : HttpResponse :=
  { status := 404, contentType := some "text/plain", headers := [], body := Body.text "Not found" }

/-- `HttpResponse::InternalServerError().content_type("text/plain").body("Internal Server Error")`. -/
def internalServerErrorResponse : HttpResponse :=
  { status := 500, contentType := some "text/plain", headers := [], body := Body.text "Internal Server Error" }

/-- The two `sqlx::Error` shapes the module distinguishes: `RowNotFound`
versus any other driver error (carrying its detail string). -/
inductive SqlxError where
  | RowNotFound
  | Other (detail : String)
  deriving DecidableEq

/-- The database connection (`PgPool`), embedded as the results its three
queries can produce: the `en` and `de` tables answer the exact-key
`SELECT ... WHERE key = $1` with a row list or a driver error, and the
`aliases` table is carried as its row set (or a driver error reading it),
with the `WHERE` clause of the alias query executed on those rows. -/
structure MapsDb where
  en : String → Except String (List Location)
  de : String → Except String (List Location)
  aliases : Except String (List AliasRow)

/-- An RGBA pixel (`image::Rgba<u8>`), channels carried as naturals. -/
abbrev Rgba := Nat × Nat × Nat × Nat

/-- `const WHITE_PIXEL: Rgba<u8> = Rgba([255, 255, 255, 255])`. -/
def WHITE_PIXEL : Rgba := (255, 255, 255, 255)

/-- An `image::RgbaImage` (`ImageBuffer<Rgba<u8>, Vec<u8>>`): a fixed
width/height pixel buffer.  The buffer contents are a total pixel
function; `put_pixel`/`overlay` become pointwise updates, which matches
the in-place mutation of the source (an `&mut ImageBuffer` never changes
its dimensions under these operations). -/
structure RgbaImage where
  width : Nat
  height : Nat
  pixels : Nat → Nat → Rgba

/-- `image::RgbaImage::new(w, h)`: a zero-initialised (transparent) buffer. -/
def RgbaImage.new (w h : Nat) : RgbaImage :=
  { width := w, height := h, pixels := fun _ _ => (0, 0, 0, 0) }

/-- The two bundled fonts of `overlay_text` (`CANTARELL_BOLD`,
`CANTARELL_REGULAR`). -/
inductive Font where
  | cantarellBold
  | cantarellRegular
  deriving DecidableEq

/-- The external capabilities the module calls into, threaded explicitly:
* `blend` — the per-channel alpha compositing arithmetic of
  `image::imageops::overlay` (external `image` crate);
* `pin`, `logo`, `logo_card` — the decoded bundled static assets
  `static/pin.png`, `static/logo.png`, `static/logo-card.png`;
* `encodePng` — `ImageBuffer::write_to(..., ImageFormat::Png)`, the PNG
  encoder of the `image` crate, a pure function of the pixel buffer;
* `rasterize` — the font rasterizer used by `overlay_text` to draw glyph
  coverage into a pixel function (a capability per the module design);
* `compose` — the tile compositing of `overlay_map::OverlayMapTask`:
  given the record and the canvas dimensions it either fails (tile fetch
  failure) or yields the composed base-map pixel contents. -/
structure RenderEnv where
  blend : Rgba → Rgba → Rgba
  pin : RgbaImage
  logo : RgbaImage
  logo_card : RgbaImage
  encodePng : RgbaImage → List Nat
  rasterize : String → Font → Int → Int → Nat → Nat → (Nat → Nat → Rgba) → (Nat → Nat → Rgba)
  compose : Location → Nat → Nat → Option (Nat → Nat → Rgba)

/-- `image::imageops::overlay(bottom, top, x, y)`: alpha-blends `top` onto
`bottom` at the signed offset `(x, y)`, clipped to the bounds of both
images; `bottom` keeps its dimensions.  The per-pixel blending arithmetic
is the environment's `blend`. -/
def imageops_overlay (blend : Rgba → Rgba → Rgba) (bottom top : RgbaImage) (x y : Int) : RgbaImage :=
  { bottom with
    pixels := fun px py =>
      let tx : Int := (px : Int) - x
      let ty : Int := (py : Int) - y
      if px < bottom.width ∧ py < bottom.height ∧
          0 ≤ tx ∧ 0 ≤ ty ∧ tx < (top.width : Int) ∧ ty < (top.height : Int) then
        blend (bottom.pixels px py) (top.pixels tx.toNat ty.toNat)
      else bottom.pixels px py }

/-- Modelled from the spec: `overlay_map::OverlayMapTask::with(&data).draw_onto(&mut img)`
(submodule not present in the sources).  The task fetches the tiles
covering the record's coordinates and blits them into the canvas in
place, returning `false` on any tile-fetch failure; the pipeline treats
`false` as a failed render.  The composed tile contents are the
environment's `compose` oracle; in-place mutation of an `&mut` buffer
leaves the canvas dimensions untouched. -/
def OverlayMapTask.draw_onto (env : RenderEnv) (data : Location) (img : RgbaImage) :
    Option RgbaImage :=
  match env.compose data img.width img.height with
  | none => none
  | some pix => some { img with pixels := pix }

/-- Modelled from the spec: `overlay_text::OverlayText::with(text, font).at(x, y).draw_onto(img)`
(submodule not present in the sources).  Drawing text rasterizes glyphs
into the canvas pixels in place via the font-rasterizer capability; only
pixel contents change, the dimensions stay as they are. -/
def OverlayText.draw_onto (env : RenderEnv) (text : String) (font : Font) (x y : Int)
    (img : RgbaImage) : RgbaImage :=
  { img with pixels := env.rasterize text font x y img.width img.height img.pixels }

/-- Display width of one char, modelled from the `unicode-width` crate as
consumed by `unicode-truncate` (`c.width().unwrap_or(0)`): control chars
report no width (taken as 0), zero-width combining marks and format
controls are 0, East-Asian wide and fullwidth ranges are 2, everything
else is 1.  The table is the crate's, restricted to the Unicode blocks
exercised in this development. -/
def charWidth (c : Char) : Nat :=
  let n := c.toNat
  if n < 0x20 ∨ (0x7F ≤ n ∧ n ≤ 0x9F) then 0
  else if (0x300 ≤ n ∧ n ≤ 0x36F) ∨ (0x200B ≤ n ∧ n ≤ 0x200F) then 0
  else if (0x1100 ≤ n ∧ n ≤ 0x115F) ∨ (0x2E80 ≤ n ∧ n ≤ 0x303E) ∨
      (0x3041 ≤ n ∧ n ≤ 0x33FF) ∨ (0x3400 ≤ n ∧ n ≤ 0x4DBF) ∨
      (0x4E00 ≤ n ∧ n ≤ 0x9FFF) ∨ (0xA000 ≤ n ∧ n ≤ 0xA4CF) ∨
      (0xAC00 ≤ n ∧ n ≤ 0xD7A3) ∨ (0xF900 ≤ n ∧ n ≤ 0xFAFF) ∨
      (0xFE30 ≤ n ∧ n ≤ 0xFE4F) ∨ (0xFF00 ≤ n ∧ n ≤ 0xFF60) ∨
      (0xFFE0 ≤ n ∧ n ≤ 0xFFE6) ∨ (0x20000 ≤ n ∧ n ≤ 0x2FFFD) ∨
      (0x30000 ≤ n ∧ n ≤ 0x3FFFD) then 2
  else 1

/-- Modelled from the `unicode-truncate` crate:
`s.unicode_truncate(w).0` keeps the longest prefix of the char sequence
whose accumulated display width does not exceed the budget `w` (widths
are summed char by char and the scan stops at the first char that would
overflow the budget). -/
def unicode_truncate : List Char → Nat → List Char
  | [], _ => []
  | c :: cs, budget =>
    if charWidth c ≤ budget then c :: unicode_truncate cs (budget - charWidth c)
    else []

/-- Total display width of a char sequence. -/
def widthSum (l : List Char) : Nat := (l.map charWidth).sum

/-- The footer title string chosen by `draw_bottom` (lines 114-118):
`if data.name.chars().count() >= 45 { format!("{}...", data.name.unicode_truncate(45).0) } else { data.name.clone() }`. -/
def footer_name (name : String) : String :=
  if 45 ≤ name.data.length then String.mk (unicode_truncate name.data 45) ++ "..."
  else name

/-- `draw_pin`: blits the pin asset horizontally centered, anchored above
the midpoint of the map region (`i64` arithmetic, hence `Int.tdiv`). -/
def draw_pin (env : RenderEnv) (img : RgbaImage) : RgbaImage :=
  imageops_overlay env.blend img env.pin
    (Int.tdiv (img.width : Int) 2 - Int.tdiv (env.pin.width : Int) 2)
    (Int.tdiv ((img.height : Int) - 125) 2 - (env.pin.height : Int))

/-- `wrap_image_in_response`: encode the buffer as PNG bytes. -/
def wrap_image_in_response (env : RenderEnv) (img : RgbaImage) : List Nat :=
  env.encodePng img

/-- `draw_bottom`: paint the 125px white footer band, blit the logo, then
draw the (possibly truncated) name in bold and the category name in
regular weight. -/
def draw_bottom (env : RenderEnv) (data : Location) (img : RgbaImage) : RgbaImage :=
  let img1 : RgbaImage :=
    { img with
      pixels := fun x y =>
        if x < img.width ∧ img.height - 125 ≤ y ∧ y < img.height then WHITE_PIXEL
        else img.pixels x y }
  let img2 := imageops_overlay env.blend img1 env.logo 15
    ((img1.height : Int) - Int.tdiv 125 2 - Int.tdiv (env.logo.height : Int) 2 + 9)
  let name := footer_name data.name
  let img3 := OverlayText.draw_onto env name Font.cantarellBold 10 (125 - 10) img2
  OverlayText.draw_onto env data.type_common_name Font.cantarellRegular 10 (125 - 50) img3

/-- The serde-deserialized `format` query parameter. -/
inductive PreviewFormat where
  | OpenGraph
  | Square
  deriving DecidableEq

/-- `#[default] OpenGraph`. -/
instance : Inhabited PreviewFormat := ⟨PreviewFormat.OpenGraph⟩

/-- `PreviewFormat::serialise`. -/
def PreviewFormat.serialise : PreviewFormat → String
  | PreviewFormat.OpenGraph => "open_graph"
  | PreviewFormat.Square => "square"

/-- Models the serde `Deserialize` derive with
`#[serde(rename_all = "snake_case")]`: the variant `OpenGraph` is spelt
`open_graph` and `Square` is spelt `square`; any other token is a
deserialization error. -/
def PreviewFormat.deserialise (s : String) : Option PreviewFormat :=
  if s = "open_graph" then some PreviewFormat.OpenGraph
  else if s = "square" then some PreviewFormat.Square
  else none

/-- Modelled from the spec: `crate::utils::LangQueryArgs` (not among the
sources) is the language collaborator, consumed as a
`should_use_english` flag and serialized with its own fixed token. -/
structure LangQueryArgs where
  token : String
  use_english : Bool
  deriving DecidableEq

/-- The collaborator's own serialization token. -/
def LangQueryArgs.serialise (l : LangQueryArgs) : String := l.token

/-- `LangQueryArgs::should_use_english`. -/
def LangQueryArgs.should_use_english (l : LangQueryArgs) : Bool := l.use_english

/-- The deserialized query arguments of `maps_handler`. -/
structure QueryArgs where
  lang : LangQueryArgs
  format : PreviewFormat
  deriving DecidableEq

/-- `get_localised_data`: select from the language-appropriate table by
exact key; zero rows is `NotFound`, a driver error is a generic
`InternalServerError` (the detail is only logged), otherwise the first
row wins (`r[0].clone()`). -/
def get_localised_data (conn : MapsDb) (id : String) (should_use_english : Bool) :
    Except HttpResponse Location :=
  let result := if should_use_english then conn.en id else conn.de id
  match result with
  | Except.ok r =>
    match r with
    | [] => Except.error notFoundResponse
    | x :: _ => Except.ok x
  | Except.error _ => Except.error internalServerErrorResponse

/-- The canvas allocated by `construct_image_from_data` (lines 65-68):
`OpenGraph` is `RgbaImage::new(1200, 630)`, `Square` is
`RgbaImage::new(1200, 1200)`. -/
def create_canvas : PreviewFormat → RgbaImage
  | PreviewFormat.OpenGraph => RgbaImage.new 1200 630
  | PreviewFormat.Square => RgbaImage.new 1200 1200

/-- The canvas as decorated by `construct_image_from_data` just before PNG
encoding: base map (or failure), then pin, then footer. -/
def construct_canvas (env : RenderEnv) (data : Location) (format : PreviewFormat) :
    Option RgbaImage :=
  match OverlayMapTask.draw_onto env data (create_canvas format) with
  | none => none
  | some img => some (draw_bottom env data (draw_pin env img))

/-- `construct_image_from_data`: allocate the per-format canvas, draw the
map (failing with `None` when the tile composite fails), overlay pin and
footer, and encode.  The `clock` argument stands for the readings of
`start_time.elapsed()` — a per-call nondeterministic input that feeds
only the two `debug!` lines, returned here as the second component. -/
def construct_image_from_data (env : RenderEnv) (clock : Nat → Nat) (data : Location)
    (format : PreviewFormat) : Option (List Nat) × List String :=
  let img := create_canvas format
  match OverlayMapTask.draw_onto env data img with
  | none => (none, [])
  | some img1 =>
    let log1 := "map draw " ++ toString (clock 0)
    let img2 := draw_pin env img1
    let img3 := draw_bottom env data img2
    let log2 := "overlay finish " ++ toString (clock 1)
    (some (wrap_image_in_response env img3), [log1, log2])

/-- `load_default_image`: decode the bundled `static/logo-card.png` and
re-encode it as PNG (the warning it logs is not modelled). -/
def load_default_image (env : RenderEnv) : List Nat :=
  env.encodePng env.logo_card

/-- The `WHERE alias = $1 AND key <> alias LIMIT 1` query of
`get_possible_redirect_url`, run with `fetch_one`: a driver error reading
the table surfaces as-is, an empty result set is `RowNotFound`, and
otherwise the first matching row is projected onto the selected columns. -/
def fetch_one_alias (table : Except String (List AliasRow)) (query : String) :
    Except SqlxError LocationKeyAlias :=
  match table with
  | Except.error e => Except.error (SqlxError.Other e)
  | Except.ok rows =>
    match (rows.filter fun r => r.alias_col == query && r.key != r.alias_col).head? with
    | none => Except.error SqlxError.RowNotFound
    | some r => Except.ok { key := r.key, visible_id := r.visible_id, type_ := r.type_ }

/-- `get_possible_redirect_url`: a found alias row becomes the canonical
preview URL; `RowNotFound` and every other driver error (logged) both
yield `None`. -/
def get_possible_redirect_url (table : Except String (List AliasRow)) (query : String)
    (args : QueryArgs) : Option String :=
  match fetch_one_alias table query with
  | Except.ok d =>
    some ("https://nav.tum.de/api/preview/" ++ d.key ++ "?lang=" ++ args.lang.serialise
      ++ "&format=" ++ args.format.serialise)
  | Except.error SqlxError.RowNotFound => none
  | Except.error (SqlxError.Other _) => none

/-- Rust `char::is_whitespace`: the Unicode `White_Space` property (the
full closed list of 25 code points). -/
def rustIsWhitespace (c : Char) : Bool :=
  let n := c.toNat
  (0x9 ≤ n && n ≤ 0xD) || n == 0x20 || n == 0x85 || n == 0xA0 || n == 0x1680 ||
  (0x2000 ≤ n && n ≤ 0x200A) || n == 0x2028 || n == 0x2029 || n == 0x202F ||
  n == 0x205F || n == 0x3000

/-- Rust `char::is_control`: the Unicode `Cc` general category
(`U+0000..U+001F` and `U+007F..U+009F`). -/
def rustIsControl (c : Char) : Bool :=
  let n := c.toNat
  n ≤ 0x1F || (0x7F ≤ n && n ≤ 0x9F)

/-- The identifier sanitisation of `maps_handler` (line 195-197):
`params.replace(|c| c.is_whitespace() || c.is_control(), "")` removes
every matching char and keeps the rest in order. -/
def sanitise_id (s : String) : String :=
  String.mk (s.data.filter fun c => !(rustIsWhitespace c || rustIsControl c))

/-- The body of `maps_handler` after identifier sanitisation, factored so
that the sanitised identifier is the explicit argument both lookups
receive: redirect check first, then the localized fetch (propagating its
error response), then the image (falling back to the default image), and
finally the `200 image/png` response. -/
def maps_handler_core (env : RenderEnv) (db : MapsDb) (clock : Nat → Nat) (id : String)
    (args : QueryArgs) : HttpResponse :=
  match get_possible_redirect_url db.aliases id args with
  | some redirect_url =>
    { status := 308, contentType := none, headers := [("Location", redirect_url)],
      body := Body.empty }
  | none =>
    match get_localised_data db id args.lang.should_use_english with
    | Except.error e => e
    | Except.ok data =>
      let img := ((construct_image_from_data env clock data args.format).1).getD
        (load_default_image env)
      { status := 200, contentType := some "image/png", headers := [], body := Body.bytes img }

/-- `maps_handler`: sanitise the path identifier, then run the pipeline. -/
def maps_handler (env : RenderEnv) (db : MapsDb) (clock : Nat → Nat) (params : String)
    (args : QueryArgs) : HttpResponse :=
  maps_handler_core env db clock (sanitise_id params) args

/-! ## Concrete fixtures used by the evaluation witnesses -/

/-- A concrete render environment exercising the pipeline: trivial blend,
small assets, an encoder that reports the buffer dimensions, and a tile
composite that always succeeds with a white base map. -/
def testEnv : RenderEnv :=
  { blend := fun _ b => b
    pin := RgbaImage.new 10 20
    logo := RgbaImage.new 30 40
    logo_card := RgbaImage.new 50 60
    encodePng := fun i => [i.width, i.height]
    rasterize := fun _ _ _ _ _ _ p => p
    compose := fun _ _ _ => some fun _ _ => WHITE_PIXEL }

/-- The same environment with the tile composite failing (the tile
provider is unreachable). -/
def failEnv : RenderEnv :=
  { testEnv with compose := fun _ _ _ => none }

/-- A constant elapsed-time reading. -/
def testClock : Nat → Nat := fun _ => 0

/-- A concrete location record. -/
def testLocation : Location :=
  { name := "Hoersaal 1", last_calendar_scrape_at := none, calendar_url := none,
    type_ := "room", type_common_name := "Hoersaal", lat := 48, lon := 11 }

/-- Concrete query arguments: German, default format. -/
def testArgs : QueryArgs :=
  { lang := { token := "de", use_english := false }, format := PreviewFormat.OpenGraph }

/-- A database with no aliases whose English table distinguishes a
missing key, a failing key and a found key. -/
def dbCases : MapsDb :=
  { en := fun id =>
      if id = "missing" then Except.ok []
      else if id = "boom" then Except.error "connection reset"
      else Except.ok [testLocation]
    de := fun _ => Except.ok [testLocation]
    aliases := Except.ok [] }

/-! ## Claim theorems -/

/-- C10: deserialising the snake_case token produced by `serialise`
(`open_graph` or `square`) yields the same `PreviewFormat` variant again:
serialisation and query-parameter deserialisation are mutually inverse on
the two format variants. -/
theorem previewFormat_serialise_roundtrip (f : PreviewFormat) :
    PreviewFormat.deserialise (PreviewFormat.serialise f) = some f := by
  cases f <;> rfl

/-- C9: for a fixed record, format, environment (tile composite, assets,
encoder), the PNG bytes produced by `construct_image_from_data` do not
depend on the elapsed-time readings, the only per-run nondeterministic
input: two runs yield byte-identical output. -/
theorem construct_image_deterministic (env : RenderEnv) (data : Location)
    (format : PreviewFormat) (clock1 clock2 : Nat → Nat) :
    (construct_image_from_data env clock1 data format).1 =
      (construct_image_from_data env clock2 data format).1 := by
  cases h : OverlayMapTask.draw_onto env data (create_canvas format) <;>
    simp [construct_image_from_data, h]

/-- A successful map draw keeps the canvas dimensions (the tile composite
is blitted into the buffer in place). -/
lemma overlayMap_draw_onto_dims (env : RenderEnv) (data : Location) (img img2 : RgbaImage)
    (h : OverlayMapTask.draw_onto env data img = some img2) :
    img2.width = img.width ∧ img2.height = img.height := by
  unfold OverlayMapTask.draw_onto at h
  cases hc : env.compose data img.width img.height with
  | none => rw [hc] at h; cases h
  | some pix => rw [hc] at h; injection h with h2; rw [← h2]; exact ⟨rfl, rfl⟩

/-- The decorated canvas keeps the dimensions of the allocated canvas. -/
lemma construct_canvas_dims (env : RenderEnv) (data : Location) (format : PreviewFormat)
    (c : RgbaImage) (hc : construct_canvas env data format = some c) :
    c.width = (create_canvas format).width ∧ c.height = (create_canvas format).height := by
  unfold construct_canvas at hc
  cases h : OverlayMapTask.draw_onto env data (create_canvas format) with
  | none => rw [h] at hc; cases hc
  | some img =>
    rw [h] at hc
    injection hc with hc2
    obtain ⟨hw, hh⟩ := overlayMap_draw_onto_dims env data _ _ h
    rw [← hc2]
    exact ⟨hw, hh⟩

/-- C5: the canvas allocated for `open_graph` is exactly 1200×630 and the
one for `square` exactly 1200×1200; every drawing stage preserves those
dimensions, so the canvas that reaches the PNG encoder has the same
per-format size, and no other size ever occurs. -/
theorem canvas_dimensions (env : RenderEnv) (clock : Nat → Nat) (data : Location) :
    (create_canvas PreviewFormat.OpenGraph).width = 1200 ∧
    (create_canvas PreviewFormat.OpenGraph).height = 630 ∧
    (create_canvas PreviewFormat.Square).width = 1200 ∧
    (create_canvas PreviewFormat.Square).height = 1200 ∧
    (∀ format : PreviewFormat,
      (construct_image_from_data env clock data format).1 =
        Option.map (wrap_image_in_response env) (construct_canvas env data format)) ∧
    (∀ format : PreviewFormat,
      (construct_canvas env data format).elim True fun c =>
        c.width = (create_canvas format).width ∧ c.height = (create_canvas format).height) ∧
    (∀ format : PreviewFormat,
      (construct_canvas env data format).elim True fun c =>
        (c.width = 1200 ∧ c.height = 630) ∨ (c.width = 1200 ∧ c.height = 1200)) := by
  refine ⟨rfl, rfl, rfl, rfl, ?_, ?_, ?_⟩
  · intro format
    cases h : OverlayMapTask.draw_onto env data (create_canvas format) <;>
      simp [construct_image_from_data, construct_canvas, h]
  · intro format
    cases hc : construct_canvas env data format with
    | none => exact trivial
    | some c => exact construct_canvas_dims env data format c hc
  · intro format
    cases format <;> cases hc : construct_canvas env data _ with
    | none => exact trivial
    | some c =>
      first
      | exact Or.inl (construct_canvas_dims env data _ c hc)
      | exact Or.inr (construct_canvas_dims env data _ c hc)

/-- C4: the localized lookup returns the 404 `Not found` plain-text
response on zero rows, the generic 500 plain-text response (independent
of the driver error's detail) on a data-store error, and the first row on
one or more rows. -/
theorem get_localised_data_cases (db : MapsDb) (id : String) (eng : Bool) :
    ((if eng then db.en id else db.de id) = Except.ok [] →
      get_localised_data db id eng = Except.error notFoundResponse) ∧
    (∀ e, (if eng then db.en id else db.de id) = Except.error e →
      get_localised_data db id eng = Except.error internalServerErrorResponse) ∧
    (∀ x xs, (if eng then db.en id else db.de id) = Except.ok (x :: xs) →
      get_localised_data db id eng = Except.ok x) ∧
    notFoundResponse.status = 404 ∧
    notFoundResponse.contentType = some "text/plain" ∧
    notFoundResponse.body = Body.text "Not found" ∧
    internalServerErrorResponse.status = 500 ∧
    internalServerErrorResponse.contentType = some "text/plain" ∧
    internalServerErrorResponse.body = Body.text "Internal Server Error" := by
  refine ⟨?_, ?_, ?_, rfl, rfl, rfl, rfl, rfl, rfl⟩
  · intro h
    unfold get_localised_data
    rw [h]
  · intro e h
    unfold get_localised_data
    rw [h]
  · intro x xs h
    unfold get_localised_data
    rw [h]

/-- C4 evaluation witness: the three branches on the concrete `dbCases`. -/
theorem get_localised_data_cases_witness :
    get_localised_data dbCases "missing" true = Except.error notFoundResponse ∧
    get_localised_data dbCases "boom" true = Except.error internalServerErrorResponse ∧
    get_localised_data dbCases "found" true = Except.ok testLocation :=
  ⟨(get_localised_data_cases dbCases "missing" true).1 (by simp [dbCases]),
   (get_localised_data_cases dbCases "boom" true).2.1 "connection reset" (by simp [dbCases]),
   (get_localised_data_cases dbCases "found" true).2.2.1 testLocation [] (by simp [dbCases])⟩

/-- A database with an empty alias table whose both language tables find
`testLocation`. -/
def dbFound : MapsDb :=
  { en := fun _ => Except.ok [testLocation]
    de := fun _ => Except.ok [testLocation]
    aliases := Except.ok [] }

/-- C2: for a valid, found record, when map rendering fails
(`construct_image_from_data` returns no image) the handler still answers
with status 200, content type `image/png`, and the precomputed default
image bytes — not with an HTTP error. -/
theorem maps_handler_render_failure_fallback (env : RenderEnv) (db : MapsDb)
    (clock : Nat → Nat) (params : String) (args : QueryArgs) (data0 : Location)
    (h1 : get_possible_redirect_url db.aliases (sanitise_id params) args = none)
    (h2 : get_localised_data db (sanitise_id params) args.lang.should_use_english =
      Except.ok data0)
    (h3 : (construct_image_from_data env clock data0 args.format).1 = none) :
    maps_handler env db clock params args =
      { status := 200, contentType := some "image/png", headers := [],
        body := Body.bytes (load_default_image env) } := by
  simp only [maps_handler, maps_handler_core, h1, h2, h3, Option.getD_none]

/-- C2 evaluation witness: a failing tile composite on a found record
yields the default-image success response. -/
theorem maps_handler_render_failure_fallback_witness :
    maps_handler failEnv dbFound testClock "x" testArgs =
      { status := 200, contentType := some "image/png", headers := [],
        body := Body.bytes (load_default_image failEnv) } :=
  maps_handler_render_failure_fallback failEnv dbFound testClock "x" testArgs testLocation
    rfl rfl rfl

/-- C7: a data-store error during the alias lookup (anything but
`RowNotFound`) yields no redirect target, exactly like a missing alias,
and the handler proceeds to the direct localized lookup — the error is
never surfaced as a user-visible response. -/
theorem alias_lookup_error_fails_open (e : String) (query : String) (argsq : QueryArgs)
    (env : RenderEnv) (db : MapsDb) (clock : Nat → Nat) (id : String) (args : QueryArgs)
    (hdb : db.aliases = Except.error e) :
    get_possible_redirect_url (Except.error e) query argsq = none ∧
    get_possible_redirect_url db.aliases id args = none ∧
    maps_handler_core env db clock id args =
      (match get_localised_data db id args.lang.should_use_english with
       | Except.error r => r
       | Except.ok d =>
         { status := 200, contentType := some "image/png", headers := [],
           body := Body.bytes (((construct_image_from_data env clock d args.format).1).getD
             (load_default_image env)) }) := by
  refine ⟨rfl, ?_, ?_⟩
  · rw [hdb]
    rfl
  · unfold maps_handler_core
    rw [hdb]
    rfl

/-- A database whose alias table read fails with a driver error. -/
def dbErrAlias : MapsDb :=
  { en := fun _ => Except.ok [testLocation]
    de := fun _ => Except.ok [testLocation]
    aliases := Except.error "timeout" }

/-- C7 evaluation witness: a concrete driver error behaves like a missing
alias and falls through to the localized lookup. -/
theorem alias_lookup_error_fails_open_witness :
    get_possible_redirect_url (Except.error "timeout") "A" testArgs = none ∧
    get_possible_redirect_url (dbErrAlias).aliases "x" testArgs = none ∧
    maps_handler_core testEnv dbErrAlias testClock "x" testArgs =
      (match get_localised_data dbErrAlias "x" testArgs.lang.should_use_english with
       | Except.error r => r
       | Except.ok d =>
         { status := 200, contentType := some "image/png", headers := [],
           body := Body.bytes (((construct_image_from_data testEnv testClock d
             testArgs.format).1).getD (load_default_image testEnv)) }) :=
  alias_lookup_error_fails_open "timeout" "A" testArgs testEnv dbErrAlias testClock "x"
    testArgs rfl

/-- C8: the handler runs both lookups on the sanitised identifier, and
sanitisation removes exactly the whitespace and control characters: no
such character survives it, and every other character is kept. -/
theorem maps_handler_sanitises_id (env : RenderEnv) (db : MapsDb) (clock : Nat → Nat)
    (params : String) (args : QueryArgs) :
    maps_handler env db clock params args =
      maps_handler_core env db clock (sanitise_id params) args ∧
    (∀ c ∈ (sanitise_id params).data,
      rustIsWhitespace c = false ∧ rustIsControl c = false) ∧
    (∀ c ∈ params.data, rustIsWhitespace c = false → rustIsControl c = false →
      c ∈ (sanitise_id params).data) := by
  refine ⟨rfl, ?_, ?_⟩
  · intro c hc
    have hmem := List.mem_filter.mp hc
    have hp := hmem.2
    simp only [Bool.not_eq_eq_eq_not, Bool.not_true ] at hp
    constructor
    · cases hw : rustIsWhitespace c
      · rfl
      · rw [hw] at hp; simp at hp
    · cases hw : rustIsControl c
      · rfl
      · rw [hw] at hp; simp at hp
  · intro c hc h1 h2
    exact List.mem_filter.mpr ⟨hc, by rw [h1, h2]; rfl⟩

/-- C8 evaluation witness: a concrete identifier with spaces, a tab and a
non-breaking space is stripped before the lookups; a surviving character
is neither whitespace nor control. -/
theorem maps_handler_sanitises_id_witness :
    maps_handler testEnv dbFound testClock "51 01\t.EG .001" testArgs =
      maps_handler_core testEnv dbFound testClock (sanitise_id "51 01\t.EG .001")
        testArgs ∧
    (rustIsWhitespace '5' = false ∧ rustIsControl '5' = false) ∧
    sanitise_id "51 01\t.EG .001" = "5101.EG.001" :=
  ⟨(maps_handler_sanitises_id testEnv dbFound testClock "51 01\t.EG .001" testArgs).1,
   (maps_handler_sanitises_id testEnv dbFound testClock "51 01\t.EG .001" testArgs).2.1
     '5' (by decide),
   by decide⟩

/-- `unicode_truncate` keeps exactly the longest prefix whose accumulated
display width fits the budget. -/
lemma unicode_truncate_spec (l : List Char) (b : Nat) :
    ∃ k, k ≤ l.length ∧ unicode_truncate l b = l.take k ∧
      widthSum (l.take k) ≤ b ∧
      ∀ j, j ≤ l.length → widthSum (l.take j) ≤ b → j ≤ k := by
  induction l generalizing b with
  | nil =>
    refine ⟨0, Nat.le_refl 0, rfl, ?_, ?_⟩
    · simp [widthSum]
    · intro j hj _
      simpa using hj
  | cons c cs ih =>
    by_cases hc : charWidth c ≤ b
    · obtain ⟨k, hk1, hk2, hk3, hk4⟩ := ih (b - charWidth c)
      refine ⟨k + 1, ?_, ?_, ?_, ?_⟩
      · simpa using Nat.succ_le_succ hk1
      · simp [unicode_truncate, hc, hk2]
      · simp only [List.take_succ_cons, widthSum, List.map_cons, List.sum_cons]
        have h3 := hk3
        simp only [widthSum] at h3
        omega
      · intro j hj hjw
        cases j with
        | zero => exact Nat.zero_le _
        | succ j2 =>
          simp only [List.take_succ_cons, widthSum, List.map_cons, List.sum_cons] at hjw
          have hj2 : j2 ≤ cs.length := by simpa using hj
          have hw2 : widthSum (cs.take j2) ≤ b - charWidth c := by
            simp only [widthSum]
            omega
          exact Nat.succ_le_succ (hk4 j2 hj2 hw2)
    · refine ⟨0, Nat.zero_le _, ?_, ?_, ?_⟩
      · simp [unicode_truncate, hc]
      · simp [widthSum]
      · intro j hj hjw
        cases j with
        | zero => exact Nat.le_refl 0
        | succ j2 =>
          exfalso
          simp only [List.take_succ_cons, widthSum, List.map_cons, List.sum_cons] at hjw
          omega

/-- A 45-character ASCII name. -/
def name45 : String := String.mk (List.replicate 45 'a')

/-- A location record whose name has exactly 45 characters. -/
def loc45 : Location := { testLocation with name := name45 }

/-- C1 counterexample: a name of exactly 45 characters falls into the
truncation branch (`>= 45`), so the name drawn into the footer gains an
appended ellipsis and is NOT unchanged. -/
theorem footer_name_at_45_appends_ellipsis :
    loc45.name.data.length = 45 ∧ footer_name loc45.name ≠ loc45.name := by decide

/-- C1 amended: only names of fewer than 45 characters are drawn into the
footer unchanged; the 45-character boundary already belongs to the
truncation-plus-ellipsis branch. -/
theorem footer_name_below_45_unchanged (name : String) (h : name.data.length < 45) :
    footer_name name = name := by
  unfold footer_name
  rw [if_neg (by omega)]

/-- C1 evaluation witness: a short name passes through unchanged. -/
theorem footer_name_below_45_unchanged_witness :
    ("Hoersaal 1" : String).data.length < 45 ∧ footer_name "Hoersaal 1" = "Hoersaal 1" :=
  ⟨by decide, footer_name_below_45_unchanged "Hoersaal 1" (by decide)⟩

/-- A 45-character name of East-Asian wide characters. -/
def wide45 : String := String.mk (List.replicate 45 '一')

/-- C6 counterexample: for a 45-character name of wide characters the
footer text is NOT the first 45 characters plus an ellipsis — the
truncation is by display width (here it keeps only 22 characters). -/
theorem footer_name_not_first_45_chars :
    45 ≤ wide45.data.length ∧
    footer_name wide45 ≠ String.mk (wide45.data.take 45) ++ "..." := by decide

/-- C6 amended: for a name of at least 45 characters the footer text is
the longest prefix whose accumulated display width is at most 45,
followed by an ellipsis; the first character cut off (when one exists)
never has zero display width, so truncation never severs a zero-width
combining character from its base. -/
theorem footer_name_long_width_truncation (name : String) (h : 45 ≤ name.data.length) :
    ∃ k, k ≤ name.data.length ∧
      footer_name name = String.mk (name.data.take k) ++ "..." ∧
      widthSum (name.data.take k) ≤ 45 ∧
      (∀ j, j ≤ name.data.length → widthSum (name.data.take j) ≤ 45 → j ≤ k) ∧
      (∀ hk : k < name.data.length, 1 ≤ charWidth (name.data.get ⟨k, hk⟩)) := by
  obtain ⟨k, hk1, hk2, hk3, hk4⟩ := unicode_truncate_spec name.data 45
  refine ⟨k, hk1, ?_, hk3, hk4, ?_⟩
  · unfold footer_name
    rw [if_pos h, hk2]
  · intro hklt
    by_contra hw
    have h0 : charWidth (name.data.get ⟨k, hklt⟩) = 0 := by omega
    have hgetE : name.data[k]? = some (name.data.get ⟨k, hklt⟩) := by
      rw [List.getElem?_eq_getElem hklt, List.get_eq_getElem]
    have hsucc : widthSum (name.data.take (k + 1)) ≤ 45 := by
      rw [List.take_succ, hgetE]
      simp only [widthSum, List.map_append, List.sum_append, Option.toList_some,
        List.map_cons, List.map_nil, List.sum_cons, List.sum_nil, h0]
      have h3 := hk3
      simp only [widthSum] at h3
      omega
    have := hk4 (k + 1) hklt hsucc
    omega

/-- C6 evaluation witness: the amended truncation law at the concrete
45-wide-character name (it truncates after 22 characters, width 44). -/
theorem footer_name_long_width_truncation_witness :
    45 ≤ wide45.data.length ∧
    ∃ k, k ≤ wide45.data.length ∧
      footer_name wide45 = String.mk (wide45.data.take k) ++ "..." ∧
      widthSum (wide45.data.take k) ≤ 45 ∧
      (∀ j, j ≤ wide45.data.length → widthSum (wide45.data.take j) ≤ 45 → j ≤ k) ∧
      (∀ hk : k < wide45.data.length, 1 ≤ charWidth (wide45.data.get ⟨k, hk⟩)) :=
  ⟨by decide, footer_name_long_width_truncation wide45 (by decide)⟩

/-- When the predicate holds for a stored row and for no other distinct
row, the first filtered hit is that row. -/
lemma head_filter_of_unique (rows : List AliasRow) (p : AliasRow → Bool) (r : AliasRow)
    (hmem : r ∈ rows) (hpr : p r = true)
    (huniq : ∀ r2 ∈ rows, p r2 = true → r2 = r) :
    (rows.filter p).head? = some r := by
  induction rows with
  | nil => cases hmem
  | cons a rest ih =>
    by_cases hpa : p a = true
    · have ha : a = r := huniq a (List.mem_cons_self a rest) hpa
      subst ha
      simp [List.filter_cons, hpa]
    · have hmem2 : r ∈ rest := by
        rcases List.mem_cons.mp hmem with h | h
        · exact absurd (h ▸ hpr) hpa
        · exact h
      have huniq2 : ∀ r2 ∈ rest, p r2 = true → r2 = r :=
        fun r2 h2 hp2 => huniq r2 (List.mem_cons_of_mem a h2) hp2
      simpa [List.filter_cons, hpa] using ih hmem2 huniq2

/-- When every row matching the requested alias is a self-alias, the
redirect query's filter finds nothing. -/
lemma filter_eq_nil_of_no_redirect (rows : List AliasRow) (A : String)
    (hall : ∀ r ∈ rows, r.alias_col = A → r.key = r.alias_col) :
    rows.filter (fun r => r.alias_col == A && r.key != r.alias_col) = [] := by
  rw [List.filter_eq_nil_iff]
  intro r hr hcon
  simp only [Bool.and_eq_true, beq_iff_eq, bne_iff_ne] at hcon
  exact hcon.2 (hall r hr hcon.1)

/-- C3: for an alias row whose canonical key differs from the alias,
requesting the alias yields a permanent redirect to
`https://nav.tum.de/api/preview/{key}?lang={lang}&format={format}` with
`lang`/`format` serialized from the request's query arguments (format
tokens `open_graph`/`square`); a self-alias row yields no redirect and
the request falls through to the direct localized lookup.  (The alias
table is keyed by the alias string, carried here as the row-uniqueness
hypothesis.) -/
theorem alias_redirect_behaviour (env : RenderEnv) (db : MapsDb) (clock : Nat → Nat)
    (rows : List AliasRow) (args : QueryArgs) (A : String) (r : AliasRow)
    (hdb : db.aliases = Except.ok rows)
    (huniq : ∀ r1 ∈ rows, ∀ r2 ∈ rows, r1.alias_col = r2.alias_col → r1 = r2)
    (hmem : r ∈ rows) (halias : r.alias_col = A) :
    (r.key ≠ A →
      get_possible_redirect_url db.aliases A args =
        some ("https://nav.tum.de/api/preview/" ++ r.key ++ "?lang=" ++ args.lang.serialise
          ++ "&format=" ++ args.format.serialise) ∧
      maps_handler_core env db clock A args =
        { status := 308, contentType := none,
          headers := [("Location",
            "https://nav.tum.de/api/preview/" ++ r.key ++ "?lang=" ++ args.lang.serialise
              ++ "&format=" ++ args.format.serialise)],
          body := Body.empty }) ∧
    (r.key = A →
      get_possible_redirect_url db.aliases A args = none ∧
      maps_handler_core env db clock A args =
        (match get_localised_data db A args.lang.should_use_english with
         | Except.error res => res
         | Except.ok d =>
           { status := 200, contentType := some "image/png", headers := [],
             body := Body.bytes (((construct_image_from_data env clock d args.format).1).getD
               (load_default_image env)) })) ∧
    PreviewFormat.serialise PreviewFormat.OpenGraph = "open_graph" ∧
    PreviewFormat.serialise PreviewFormat.Square = "square" := by
  refine ⟨?_, ?_, rfl, rfl⟩
  · intro hkey
    have hkey2 : r.key ≠ r.alias_col := by rw [halias]; exact hkey
    have hpr : (r.alias_col == A && r.key != r.alias_col) = true := by
      simp only [Bool.and_eq_true, beq_iff_eq, bne_iff_ne]
      exact ⟨halias, hkey2⟩
    have huniq2 : ∀ r2 ∈ rows, (r2.alias_col == A && r2.key != r2.alias_col) = true → r2 = r := by
      intro r2 h2 hp2
      simp only [Bool.and_eq_true, beq_iff_eq, bne_iff_ne] at hp2
      exact huniq r2 h2 r hmem (by rw [hp2.1, halias])
    have hhead : (rows.filter fun r2 => r2.alias_col == A && r2.key != r2.alias_col).head? =
        some r :=
      head_filter_of_unique rows _ r hmem hpr huniq2
    have hfetch : fetch_one_alias (Except.ok rows) A =
        Except.ok { key := r.key, visible_id := r.visible_id, type_ := r.type_ } := by
      simp only [fetch_one_alias]
      rw [hhead]
    have hred : get_possible_redirect_url db.aliases A args =
        some ("https://nav.tum.de/api/preview/" ++ r.key ++ "?lang=" ++ args.lang.serialise
          ++ "&format=" ++ args.format.serialise) := by
      unfold get_possible_redirect_url
      rw [hdb, hfetch]
    refine ⟨hred, ?_⟩
    unfold maps_handler_core
    rw [hred]
  · intro hkey
    have hall : ∀ r2 ∈ rows, r2.alias_col = A → r2.key = r2.alias_col := by
      intro r2 h2 h2a
      have hr2 : r2 = r := huniq r2 h2 r hmem (by rw [h2a, halias])
      rw [hr2, halias]
      exact hkey
    have hfil := filter_eq_nil_of_no_redirect rows A hall
    have hnone : get_possible_redirect_url db.aliases A args = none := by
      unfold get_possible_redirect_url
      rw [hdb]
      simp only [fetch_one_alias]
      rw [hfil]
      rfl
    refine ⟨hnone, ?_⟩
    unfold maps_handler_core
    rw [hnone]

/-- A stored alias row mapping alias `A1` to the different canonical key
`B2`. -/
def aliasRowAB : AliasRow :=
  { alias_col := "A1", key := "B2", visible_id := "vis", type_ := "room" }

/-- A database whose alias table holds exactly `aliasRowAB`. -/
def dbAliasAB : MapsDb :=
  { en := fun _ => Except.ok [testLocation]
    de := fun _ => Except.ok [testLocation]
    aliases := Except.ok [aliasRowAB] }

/-- A stored self-alias row (`alias = key`). -/
def aliasRowSelf : AliasRow :=
  { alias_col := "C3", key := "C3", visible_id := "v", type_ := "room" }

/-- A database whose alias table holds exactly `aliasRowSelf`. -/
def dbAliasSelf : MapsDb :=
  { en := fun _ => Except.ok [testLocation]
    de := fun _ => Except.ok [testLocation]
    aliases := Except.ok [aliasRowSelf] }

/-- C3 evaluation witness: requesting `A1` redirects permanently to the
canonical URL for `B2`; requesting the self-alias `C3` produces no
redirect. -/
theorem alias_redirect_behaviour_witness :
    (get_possible_redirect_url dbAliasAB.aliases "A1" testArgs =
      some ("https://nav.tum.de/api/preview/" ++ "B2" ++ "?lang=" ++ testArgs.lang.serialise
        ++ "&format=" ++ testArgs.format.serialise) ∧
     maps_handler_core testEnv dbAliasAB testClock "A1" testArgs =
      { status := 308, contentType := none,
        headers := [("Location",
          "https://nav.tum.de/api/preview/" ++ "B2" ++ "?lang=" ++ testArgs.lang.serialise
            ++ "&format=" ++ testArgs.format.serialise)],
        body := Body.empty }) ∧
    get_possible_redirect_url dbAliasSelf.aliases "C3" testArgs = none :=
  ⟨(alias_redirect_behaviour testEnv dbAliasAB testClock [aliasRowAB] testArgs "A1" aliasRowAB
      rfl
      (by
        intro r1 h1 r2 h2 _
        rw [List.mem_singleton] at h1 h2
        rw [h1, h2])
      (List.mem_singleton.mpr rfl) rfl).1 (by decide),
   ((alias_redirect_behaviour testEnv dbAliasSelf testClock [aliasRowSelf] testArgs "C3"
      aliasRowSelf rfl
      (by
        intro r1 h1 r2 h2 _
        rw [List.mem_singleton] at h1 h2
        rw [h1, h2])
      (List.mem_singleton.mpr rfl) rfl).2.1 rfl).1⟩
